import Mathlib

/-!
Verification development for the disco article pipeline.

The pipeline keeps a single SQLite table `articles` and drives it through
stages (import, scrape, summarize, relevance filter).  The definitions below
are a shallow embedding of the state-changing parts of the Python sources:

* `build_unified_db.py`   — table schema, deduplicating import loop
* `scrape_articles.py`    — pending select and synchronous scrape loop
* `summarize_articles.py` — pending select and synchronous summarize loop
* `summarize_batch_prepare.py` / `summarize_batch_submit.py` /
  `summarize_batch_process.py` — batch submit marking and reconciliation
* `filter_cultural_articles.py` / `check_cultural_filter_batch.py`
  — relevance-filter reconciliation
* `google_search/google_search.py` — relative date parsing

The store is modelled as a `List Article` in insertion (= `id`) order, which
is how every query in the sources orders its rows (`ORDER BY id`, and ids are
assigned by AUTOINCREMENT at insertion).  `UPDATE ... WHERE id = ?` is
modelled by `updateById`, `SELECT ... WHERE <cond>` by `List.filter`.
-/

/-- One row of the `articles` table created in `build_unified_db.py`
(`CREATE TABLE articles`), together with the columns added lazily by the
stage scripts via `ALTER TABLE articles ADD COLUMN ...`
(`text`, `scraped_at`, `scrape_status` in `scrape_articles.py`;
`summary`, `summarized_at`, `summary_status`, `batch_id` in
`summarize_articles.py`/`summarize_batch_prepare.py`;
`cultural_relevant`, `filter_batch_id` in `filter_cultural_articles.py`).
Nullable columns are `Option`s. -/
structure Article where
  id : Nat
  title : String
  url : String
  source : String
  date : String
  search_type : String
  text : Option String := none
  scraped_at : Option String := none
  scrape_status : Option String := none
  summary : Option String := none
  summarized_at : Option String := none
  summary_status : Option String := none
  cultural_relevant : Option Nat := none
  batch_id : Option String := none
  filter_batch_id : Option String := none
  deriving DecidableEq

/-- SQL condition `col IS NULL OR col = ''` on a nullable text column. -/
def nullOrEmpty : Option String → Bool
  | none => true
  | some s => decide (s = "")

/-- SQL condition `col IS NOT NULL AND col != ''` on a nullable text column. -/
def notNullOrEmpty : Option String → Bool
  | none => false
  | some s => !(decide (s = ""))

/-- SQL condition `LENGTH(col) > n` (NULL compares false). -/
def lengthGt : Option String → Nat → Bool
  | none, _ => false
  | some s, n => decide (n < s.length)

/-- `UPDATE articles SET ... WHERE id = ?`: apply `f` to every row whose `id`
matches. -/
def updateById (s : List Article) (i : Nat) (f : Article → Article) : List Article :=
  s.map fun a => if a.id = i then f a else a

/-! ## Deduplicating importer (`build_unified_db.py`)

The import loops classify every incoming row as added / skipped (duplicate)
/ error, relying on the `UNIQUE` constraint on `url`: the `INSERT` raises
`sqlite3.IntegrityError` for an existing url, which is caught and counted in
`skipped`.  The Media Cloud loop additionally skips rows with an empty url
up front (also counted in `skipped`). -/

/-- The per-feed counters of `build_unified_db.py` (`stats[...]`). -/
structure ImportStats where
  added : Nat := 0
  skipped : Nat := 0
  errors : Nat := 0
  deriving DecidableEq

/-- A source-feed row as read by the import loop (title/url/source/date-like
string, already mapped to the canonical field names). -/
structure FeedRow where
  title : String
  url : String
  source : String
  date : String
  deriving DecidableEq

/-- Does some stored row already carry this url?  (This is what makes the
`INSERT` hit the `UNIQUE` constraint.) -/
def urlExists (s : List Article) (u : String) : Bool :=
  s.any fun a => decide (a.url = u)

/-- The id AUTOINCREMENT assigns to the next inserted row. -/
def nextId (s : List Article) : Nat :=
  s.foldl (fun m a => max m a.id) 0 + 1

/-- The article row built from a feed row by the Media Cloud import loop. -/
def rowArticle (s : List Article) (r : FeedRow) : Article :=
  { id := nextId s, title := r.title, url := r.url, source := r.source,
    date := r.date, search_type := "media_cloud" }

/-- One iteration of the Media Cloud import loop of `build_unified_db.py`
(lines 113–147): skip an empty url (counting it in `skipped`), otherwise
`INSERT`; a duplicate url raises `IntegrityError`, caught and counted in
`skipped`; a fresh url is appended and counted in `added`. -/
def importRow (st : List Article × ImportStats) (r : FeedRow) : List Article × ImportStats :=
  if r.url = "" then
    (st.1, { st.2 with skipped := st.2.skipped + 1 })
  else if urlExists st.1 r.url then
    (st.1, { st.2 with skipped := st.2.skipped + 1 })
  else
    (st.1 ++ [rowArticle st.1 r], { st.2 with added := st.2.added + 1 })

/-- The whole import loop over one feed. -/
def importFeed (s : List Article) (c : ImportStats) (rows : List FeedRow) :
    List Article × ImportStats :=
  rows.foldl importRow (s, c)

theorem urlExists_iff {s : List Article} {u : String} :
    urlExists s u = true ↔ ∃ a ∈ s, a.url = u := by
  simp [urlExists]

theorem importFeed_cons (s : List Article) (c : ImportStats) (r : FeedRow)
    (rows : List FeedRow) :
    importFeed s c (r :: rows)
      = importFeed (importRow (s, c) r).1 (importRow (s, c) r).2 rows := rfl

theorem urlExists_importRow {s : List Article} {c : ImportStats} {r : FeedRow}
    {u : String} (h : urlExists s u = true) :
    urlExists (importRow (s, c) r).1 u = true := by
  unfold importRow
  split
  · exact h
  · split
    · exact h
    · simpa [urlExists, List.any_append] using Or.inl h

theorem urlExists_importFeed {s : List Article} {c : ImportStats}
    {rows : List FeedRow} {u : String} (h : urlExists s u = true) :
    urlExists (importFeed s c rows).1 u = true := by
  induction rows generalizing s c with
  | nil => exact h
  | cons r rows ih =>
    rw [importFeed_cons]
    exact ih (urlExists_importRow h)

/-- After importing a feed, every row of the feed with a non-empty url has
its url present in the store. -/
theorem importFeed_covers {rows : List FeedRow} {s : List Article}
    {c : ImportStats} {r : FeedRow} (hr : r ∈ rows) (hu : ¬ r.url = "") :
    urlExists (importFeed s c rows).1 r.url = true := by
  induction rows generalizing s c with
  | nil => cases hr
  | cons r0 rows ih =>
    rw [importFeed_cons]
    rcases List.mem_cons.mp hr with rfl | hmem
    · refine urlExists_importFeed ?_
      unfold importRow
      split
      · exact absurd (by assumption) hu
      · split
        · assumption
        · simp [urlExists, List.any_append, rowArticle]
    · exact ih hmem

/-- If every row of the feed has an empty url or an already-present url,
the import leaves the store untouched and counts every row as skipped. -/
theorem importFeed_all_skipped {rows : List FeedRow} {s : List Article}
    (h : ∀ r ∈ rows, r.url = "" ∨ urlExists s r.url = true) (c : ImportStats) :
    importFeed s c rows = (s, { c with skipped := c.skipped + rows.length }) := by
  induction rows generalizing c with
  | nil => simp [importFeed]
  | cons r rows ih =>
    have hstep : importRow (s, c) r = (s, { c with skipped := c.skipped + 1 }) := by
      rcases h r (List.mem_cons_self r rows) with hu | hex
      · simp [importRow, hu]
      · unfold importRow
        split
        · rfl
        · simp [hex]
    rw [importFeed_cons, hstep]
    have hrest : ∀ r2 ∈ rows, r2.url = "" ∨ urlExists s r2.url = true :=
      fun r2 hr2 => h r2 (List.mem_cons_of_mem r hr2)
    rw [ih hrest]
    have : c.skipped + 1 + rows.length = c.skipped + (rows.length + 1) := by omega
    simp [this]

theorem importRow_nodup {s : List Article} {c : ImportStats} {r : FeedRow}
    (h : (s.map fun a => a.url).Nodup) :
    (((importRow (s, c) r).1).map fun a => a.url).Nodup := by
  unfold importRow
  split
  · exact h
  · split
    · exact h
    · have hnot : ¬ r.url ∈ s.map fun a => a.url := by
        intro hmem
        rcases List.mem_map.mp hmem with ⟨a, ha, hau⟩
        have : urlExists s r.url = true := urlExists_iff.mpr ⟨a, ha, hau⟩
        simp_all
      simp only [List.map_append, rowArticle, List.map_cons, List.map_nil]
      rw [List.nodup_append]
      refine ⟨h, List.nodup_singleton _, ?_⟩
      intro u hu hu1
      rcases List.mem_singleton.mp hu1 with rfl
      exact hnot hu

theorem importFeed_nodup {rows : List FeedRow} {s : List Article}
    {c : ImportStats} (h : (s.map fun a => a.url).Nodup) :
    (((importFeed s c rows).1).map fun a => a.url).Nodup := by
  induction rows generalizing s c with
  | nil => exact h
  | cons r rows ih =>
    rw [importFeed_cons]
    exact ih (importRow_nodup h)

/-- Claim C1: after any sequence of imports no two store rows share a url:
a row whose url already exists is rejected as a counted duplicate and never
overwrites the store, and re-importing the same feed a second time leaves the
store unchanged, adds zero rows, and counts every row of the feed as a
duplicate/skip. -/
theorem claim_C1_url_unique :
    (∀ (s : List Article) (c : ImportStats) (rows : List FeedRow),
        (s.map fun a => a.url).Nodup →
        (((importFeed s c rows).1).map fun a => a.url).Nodup)
    ∧ (∀ (s : List Article) (c : ImportStats) (r : FeedRow),
        urlExists s r.url = true →
        importRow (s, c) r = (s, { c with skipped := c.skipped + 1 }))
    ∧ (∀ (s : List Article) (c c2 : ImportStats) (rows : List FeedRow),
        importFeed (importFeed s c rows).1 c2 rows
          = ((importFeed s c rows).1,
             { c2 with skipped := c2.skipped + rows.length })) := by
  refine ⟨fun s c rows h => importFeed_nodup h, ?_, ?_⟩
  · intro s c r hex
    unfold importRow
    split
    · rfl
    · simp [hex]
  · intro s c c2 rows
    refine importFeed_all_skipped ?_ c2
    intro r hr
    by_cases hu : r.url = ""
    · exact Or.inl hu
    · exact Or.inr (importFeed_covers hr hu)

/-- Witness for C1: the uniqueness invariant evaluated on a concrete store
and feed. -/
theorem claim_C1_url_unique_witness :
    (((importFeed [] {} [⟨"t1", "u1", "s1", "d1"⟩, ⟨"t2", "u1", "s2", "d2"⟩]).1).map
        fun a => a.url).Nodup :=
  claim_C1_url_unique.1 [] {} _ (by simp)

/-! ## Stage selectors (the pending-set `SELECT`s)

`scrape_articles.py` lines 37–42, `summarize_articles.py` lines 52–60
(the identical condition is used by `summarize_batch_prepare.py` lines 40–48
and as the `WHERE` clause of the submit-marking `UPDATE` in
`summarize_batch_submit.py` lines 50–58), and
`filter_cultural_articles.py` lines 49–56. -/

/-- `WHERE text IS NULL OR text = ''` — rows still to scrape. -/
def scrape_pending (a : Article) : Bool :=
  nullOrEmpty a.text

/-- `WHERE text IS NOT NULL AND text != '' AND LENGTH(text) > 200 AND
(summary IS NULL OR summary = '')` — rows still to summarize. -/
def summarize_pending (a : Article) : Bool :=
  notNullOrEmpty a.text && lengthGt a.text 200 && nullOrEmpty a.summary

/-- `WHERE summary IS NOT NULL AND summary != '' AND LENGTH(summary) > 50 AND
cultural_relevant IS NULL` — rows still to relevance-filter. -/
def filter_pending (a : Article) : Bool :=
  notNullOrEmpty a.summary && lengthGt a.summary 50 && a.cultural_relevant.isNone

/-! ## Synchronous stage runners

`scrape_articles.py` lines 58–109 and `summarize_articles.py` lines 101–160:
fetch the pending rows once, then iterate over them in id order, writing the
outcome of each row (and committing) before moving to the next.  The outcome
the external collaborator produces for a given row is abstracted as a
function from the row id. -/

/-- Outcome of one `Article(url).download(); parse()` attempt:
either the extracted text, or the message of the raised exception. -/
inductive ScrapeResult where
  | fetched (txt : String)
  | failure (msg : String)
  deriving DecidableEq

/-- The per-row write of `scrape_articles.py` lines 72–105:
substantial text (`text and len(text) > 100`) is stored with
`scrape_status = 'success'` and a timestamp; short text gets
`scrape_status = 'no_content'`; an exception gets
`scrape_status = 'error: ' + str(e)[:200]`. -/
def scrape_write (now : String) (r : ScrapeResult) (a : Article) : Article :=
  match r with
  | .fetched txt =>
    if ¬ txt = "" ∧ 100 < txt.length then
      { a with text := some txt, scraped_at := some now,
               scrape_status := some "success" }
    else
      { a with scrape_status := some "no_content" }
  | .failure msg =>
    { a with scrape_status := some ("error: " ++ msg.take 200) }

/-- Outcome of one `client.chat.completions.create` call in
`summarize_articles.py`: the reply content, or the raised exception. -/
inductive SummarizeResult where
  | reply (content : String)
  | failure (msg : String)
  deriving DecidableEq

/-- The per-row write of `summarize_articles.py` lines 129–151: a reply is
stored as `summary` with `summary_status = 'success'` and a timestamp; an
exception is stored as `summary_status = 'error: ' + str(e)[:200]`. -/
def summarize_write (now : String) (r : SummarizeResult) (a : Article) : Article :=
  match r with
  | .reply content =>
    { a with summary := some content, summarized_at := some now,
             summary_status := some "success" }
  | .failure msg =>
    { a with summary_status := some ("error: " ++ msg.take 200) }

/-- Generic loop body shared by the stage scripts: iterate over a previously
fetched row list `L`, applying the per-row update (an `UPDATE ... WHERE
id = ?` followed by `commit`) for each row in order. -/
def applyAll (g : Nat → Article → Article) (L : List Article) (s : List Article) :
    List Article :=
  L.foldl (fun st a => updateById st a.id (g a.id)) s

/-- The synchronous scrape run interrupted after the first `k` pending rows
(`k` can be the full pending count for a completed run). -/
def scrape_run_upto (now : String) (res : Nat → ScrapeResult) (s : List Article)
    (k : Nat) : List Article :=
  applyAll (fun i => scrape_write now (res i)) ((s.filter scrape_pending).take k) s

/-- A complete synchronous summarize run. -/
def summarize_run (now : String) (res : Nat → SummarizeResult) (s : List Article) :
    List Article :=
  applyAll (fun i => summarize_write now (res i)) (s.filter summarize_pending) s

/-! ### Characterizing a run as a per-row map -/

/-- What the loop does to one row value, seen pointwise. -/
def pointRun (g : Nat → Article → Article) (L : List Article) (x : Article) : Article :=
  L.foldl (fun y a => if y.id = a.id then g a.id y else y) x

theorem applyAll_eq_map (g : Nat → Article → Article) (L : List Article) :
    ∀ s : List Article, applyAll g L s = s.map (pointRun g L) := by
  induction L with
  | nil =>
    intro s
    show s = List.map (pointRun g []) s
    induction s with
    | nil => rfl
    | cons b t ihs => simpa [pointRun] using ihs
  | cons a L ih =>
    intro s
    show applyAll g L (updateById s a.id (g a.id)) = _
    rw [ih, updateById, List.map_map]
    rfl

theorem pointRun_of_not_mem {g : Nat → Article → Article} {L : List Article}
    {x : Article} (h : ∀ a ∈ L, ¬ a.id = x.id) : pointRun g L x = x := by
  induction L with
  | nil => rfl
  | cons a L ih =>
    show pointRun g L (if x.id = a.id then g a.id x else x) = x
    rw [if_neg fun he => h a (List.mem_cons_self a L) he.symm]
    exact ih fun b hb => h b (List.mem_cons_of_mem a hb)

theorem pointRun_eq {g : Nat → Article → Article}
    (hg : ∀ i a, (g i a).id = a.id) {L : List Article} {x : Article}
    (hnd : (L.map Article.id).Nodup) (hx : ∀ a ∈ L, a.id = x.id → a = x) :
    pointRun g L x = if x ∈ L then g x.id x else x := by
  induction L with
  | nil => simp [pointRun]
  | cons a L ih =>
    show pointRun g L (if x.id = a.id then g a.id x else x) = _
    by_cases hid : x.id = a.id
    · have hax : a = x := hx a (List.mem_cons_self a L) hid.symm
      rw [if_pos hid]
      have hidsL : ∀ b ∈ L, ¬ b.id = (g a.id x).id := by
        intro b hb
        rw [hg a.id x, hid]
        intro hbe
        have : a.id ∈ L.map Article.id := hbe ▸ List.mem_map_of_mem Article.id hb
        exact (List.nodup_cons.mp (by simpa using hnd)).1 this
      rw [pointRun_of_not_mem hidsL, if_pos (hax ▸ List.mem_cons_self a L), hid, hax]
    · rw [if_neg hid]
      have hmem : (x ∈ a :: L) ↔ x ∈ L := by
        constructor
        · intro hm
          rcases List.mem_cons.mp hm with rfl | hm2
          · exact absurd rfl hid
          · exact hm2
        · exact List.mem_cons_of_mem a
      rw [ih (List.nodup_cons.mp (by simpa using hnd)).2
        (fun b hb => hx b (List.mem_cons_of_mem a hb))]
      by_cases hxm : x ∈ L
      · rw [if_pos hxm, if_pos (hmem.mpr hxm)]
      · rw [if_neg hxm, if_neg (fun hc => hxm (hmem.mp hc))]

/-- A run over a sublist `L` of the store (with unique ids) replaces exactly
the rows of `L` by their per-row update and leaves every other row alone. -/
theorem applyAll_char {g : Nat → Article → Article}
    (hg : ∀ i a, (g i a).id = a.id) {L s : List Article} (hL : L.Sublist s)
    (hids : (s.map Article.id).Nodup) :
    applyAll g L s = s.map fun x => if x ∈ L then g x.id x else x := by
  rw [applyAll_eq_map]
  refine List.map_congr_left fun x hxs => ?_
  have hndL : (L.map Article.id).Nodup :=
    List.Nodup.sublist (List.Sublist.map Article.id hL) hids
  refine pointRun_eq hg hndL fun a ha hai => ?_
  exact List.inj_on_of_nodup_map hids (hL.subset ha) hxs hai

theorem scrape_write_id (now : String) (r : ScrapeResult) (a : Article) :
    (scrape_write now r a).id = a.id := by
  cases r with
  | fetched txt =>
    simp only [scrape_write]
    split <;> rfl
  | failure msg => rfl

theorem summarize_write_id (now : String) (r : SummarizeResult) (a : Article) :
    (summarize_write now r a).id = a.id := by
  cases r <;> rfl

theorem notNullOrEmpty_of_lengthGt {t : Option String} {n : Nat}
    (h : lengthGt t n = true) : notNullOrEmpty t = true := by
  cases t with
  | none => simp [lengthGt] at h
  | some s =>
    simp only [lengthGt, decide_eq_true_eq] at h
    simp only [notNullOrEmpty, Bool.not_eq_true', decide_eq_false_iff_not]
    intro he
    rw [he] at h
    simp at h

theorem summarize_run_char (now : String) (res : Nat → SummarizeResult)
    {s : List Article} (hids : (s.map Article.id).Nodup) :
    summarize_run now res s
      = s.map fun x =>
          if summarize_pending x then summarize_write now (res x.id) x else x := by
  rw [summarize_run,
    applyAll_char (fun i a => summarize_write_id now (res i) a)
      (List.filter_sublist s) hids]
  refine List.map_congr_left fun x hx => ?_
  by_cases hp : summarize_pending x = true
  · rw [if_pos (List.mem_filter.mpr ⟨hx, hp⟩), if_pos hp]
  · rw [if_neg (fun hc => hp (List.mem_filter.mp hc).2), if_neg hp]

theorem scrape_run_upto_char (now : String) (res : Nat → ScrapeResult)
    {s : List Article} (k : Nat) (hids : (s.map Article.id).Nodup) :
    scrape_run_upto now res s k
      = s.map fun x =>
          if x ∈ (s.filter scrape_pending).take k
          then scrape_write now (res x.id) x else x :=
  applyAll_char (fun i a => scrape_write_id now (res i) a)
    ((List.take_sublist k _).trans (List.filter_sublist s)) hids

theorem filter_of_map (p : Article → Bool) (f : Article → Article)
    (s : List Article) :
    (s.map f).filter p = (s.filter fun x => p (f x)).map f := by
  induction s with
  | nil => rfl
  | cons a t ih =>
    by_cases h : p (f a) = true <;> simp [List.filter_cons, h, ih]

theorem filter_not_mem_take {L : List Article} (hnd : L.Nodup) (k : Nat) :
    (L.filter fun x => !(decide (x ∈ L.take k))) = L.drop k := by
  have hdisj : ∀ a ∈ L.drop k, ¬ a ∈ L.take k := by
    have h2 := hnd
    rw [← List.take_append_drop k L, List.nodup_append] at h2
    exact fun a ha hta => h2.2.2 hta ha
  have h1 : List.filter (fun x => !(decide (x ∈ L.take k))) (L.take k) = [] :=
    List.filter_eq_nil_iff.mpr (fun a ha => by simp [ha])
  have h2 : List.filter (fun x => !(decide (x ∈ L.take k))) (L.drop k) = L.drop k :=
    List.filter_eq_self.mpr (fun a ha => by simp [hdisj a ha])
  calc
    List.filter (fun x => !(decide (x ∈ L.take k))) L
        = List.filter (fun x => !(decide (x ∈ L.take k)))
            (L.take k ++ L.drop k) := by rw [List.take_append_drop]
    _ = L.drop k := by rw [List.filter_append, h1, h2, List.nil_append]

/-- A concrete 201-character scraped text (long enough for the
`LENGTH(text) > 200` prerequisite). -/
def longText : String := String.mk (List.replicate 201 'x')

/-- A concrete scraped-but-not-yet-summarized article. -/
def artScraped : Article :=
  { id := 1, title := "t", url := "u", source := "s", date := "d",
    search_type := "google_news", text := some longText }

/-- A concrete not-yet-scraped article. -/
def artUnscraped : Article :=
  { id := 1, title := "t", url := "u", source := "s", date := "d",
    search_type := "google_news" }

set_option maxRecDepth 10000 in
/-- Claim C2 (amended): a record is in a stage's pending set iff its stage
output column is null-or-empty and the stage's prerequisites hold
(summarization: `LENGTH(text) > 200`; relevance filtering: non-empty
`summary` with `LENGTH(summary) > 50`); a successful scrape (which always
stores non-empty text), a successful summarization that stores a NON-EMPTY
summary, and any reconciled relevance decision remove the record from the
respective pending set.  (A summarization success that stores an empty
summary re-enters the pending set — see the counterexample.) -/
theorem claim_C2_pending_sets :
    (∀ (s : List Article) (a : Article),
        a ∈ s.filter scrape_pending ↔ a ∈ s ∧ nullOrEmpty a.text = true)
    ∧ (∀ (s : List Article) (a : Article),
        a ∈ s.filter summarize_pending
          ↔ a ∈ s ∧ (nullOrEmpty a.summary = true ∧ lengthGt a.text 200 = true))
    ∧ (∀ (s : List Article) (a : Article),
        a ∈ s.filter filter_pending
          ↔ a ∈ s ∧ (a.cultural_relevant.isNone = true
              ∧ notNullOrEmpty a.summary = true ∧ lengthGt a.summary 50 = true))
    ∧ (∀ (now txt : String) (a : Article), ¬ txt = "" → 100 < txt.length →
        scrape_pending (scrape_write now (.fetched txt) a) = false)
    ∧ (∀ (now c : String) (a : Article), ¬ c = "" →
        summarize_pending (summarize_write now (.reply c) a) = false)
    ∧ (∀ (a : Article) (v : Nat),
        filter_pending { a with cultural_relevant := some v } = false) := by
  refine ⟨?_, ?_, ?_, ?_, ?_, ?_⟩
  · intro s a
    rw [List.mem_filter]
    simp [scrape_pending]
  · intro s a
    rw [List.mem_filter]
    constructor
    · rintro ⟨hs, hp⟩
      simp only [summarize_pending, Bool.and_eq_true] at hp
      exact ⟨hs, hp.2, hp.1.2⟩
    · rintro ⟨hs, h1, h2⟩
      refine ⟨hs, ?_⟩
      simp [summarize_pending, h1, h2, notNullOrEmpty_of_lengthGt h2]
  · intro s a
    rw [List.mem_filter]
    simp only [filter_pending, Bool.and_eq_true]
    tauto
  · intro now txt a h1 h2
    simp [scrape_write, scrape_pending, nullOrEmpty, h1, h2]
  · intro now c a hc
    simp [summarize_write, summarize_pending, nullOrEmpty, hc]
  · intro a v
    simp [filter_pending]

set_option maxRecDepth 10000 in
/-- Witness for the amended C2: successful writes with non-empty outputs
remove concrete records from the pending sets. -/
theorem claim_C2_pending_sets_witness :
    scrape_pending (scrape_write "T" (.fetched longText) artUnscraped) = false
    ∧ summarize_pending (summarize_write "T" (.reply "ok") artScraped) = false :=
  ⟨claim_C2_pending_sets.2.2.2.1 "T" longText artUnscraped (by decide) (by decide),
   claim_C2_pending_sets.2.2.2.2.1 "T" "ok" artScraped (by decide)⟩

set_option maxRecDepth 10000 in
/-- Counterexample to C2 as stated: a summarization run in which the record
is processed successfully (the write stores `summary_status = 'success'`)
but the model reply is the empty string leaves the record in the
summarization pending set, so it DOES reappear after a successful run. -/
theorem claim_C2_counterexample :
    (summarize_run "T" (fun _ => SummarizeResult.reply "") [artScraped]).filter
        summarize_pending
      = [summarize_write "T" (SummarizeResult.reply "") artScraped]
    ∧ (summarize_write "T" (SummarizeResult.reply "") artScraped).summary_status
        = some "success" := by
  constructor
  · rfl
  · rfl

/-- Claim C10: the pending `SELECT`s treat an empty-string output like NULL:
an empty summary stored with `summary_status = 'success'` leaves the record
in the summarization pending set (status alone does not matter), while any
non-empty summary removes it; `summary = ''` and `summary IS NULL` are
interchangeable for the pending condition. -/
theorem claim_C10_empty_output (a : Article) (now : String)
    (h : lengthGt a.text 200 = true) :
    summarize_pending (summarize_write now (.reply "") a) = true
    ∧ (summarize_write now (.reply "") a).summary_status = some "success"
    ∧ (∀ c : String, ¬ c = "" →
        summarize_pending (summarize_write now (.reply c) a) = false)
    ∧ (∀ b : Article,
        summarize_pending { b with summary := some "" }
          = summarize_pending { b with summary := none }) := by
  refine ⟨?_, rfl, ?_, ?_⟩
  · simp [summarize_write, summarize_pending, nullOrEmpty, h,
      notNullOrEmpty_of_lengthGt h]
  · intro c hc
    simp [summarize_write, summarize_pending, nullOrEmpty, hc]
  · intro b
    simp [summarize_pending, nullOrEmpty]

set_option maxRecDepth 10000 in
/-- Witness for C10 at a concrete record. -/
theorem claim_C10_empty_output_witness :
    summarize_pending (summarize_write "T" (.reply "") artScraped) = true :=
  (claim_C10_empty_output artScraped "T" (by decide)).1

/-- Claim C3 (amended): each per-record write is committed before the next
record starts, so a scrape run interrupted after the first `k` pending
records keeps all `k` completed writes (first conjunct: the store equals the
original store with exactly those `k` rows rewritten); if those `k` records
were processed SUCCESSFULLY, rerunning the stage selects exactly the
remaining `n − k` pending records and never re-selects the first `k`.
(Records among the first `k` whose processing failed stay pending and are
retried by the rerun — see the counterexample.) -/
theorem claim_C3_resume (now : String) (res : Nat → ScrapeResult)
    (s : List Article) (k : Nat) (hids : (s.map Article.id).Nodup)
    (hsucc : ∀ a ∈ (s.filter scrape_pending).take k,
      ∃ t, res a.id = ScrapeResult.fetched t ∧ ¬ t = "" ∧ 100 < t.length) :
    (scrape_run_upto now res s k
      = s.map fun x =>
          if x ∈ (s.filter scrape_pending).take k
          then scrape_write now (res x.id) x else x)
    ∧ (scrape_run_upto now res s k).filter scrape_pending
        = (s.filter scrape_pending).drop k
    ∧ ∀ a ∈ (s.filter scrape_pending).take k,
        ¬ a ∈ (scrape_run_upto now res s k).filter scrape_pending := by
  have hchar := scrape_run_upto_char now res k hids
  have hPnd : (s.filter scrape_pending).Nodup :=
    List.Nodup.filter _ (List.Nodup.of_map Article.id hids)
  have hdrop : (scrape_run_upto now res s k).filter scrape_pending
      = (s.filter scrape_pending).drop k := by
    rw [hchar, filter_of_map]
    have hpred : ∀ x ∈ s,
        scrape_pending (if x ∈ (s.filter scrape_pending).take k
            then scrape_write now (res x.id) x else x)
          = (!(decide (x ∈ (s.filter scrape_pending).take k))
              && scrape_pending x) := by
      intro x hx
      by_cases hm : x ∈ (s.filter scrape_pending).take k
      · rw [if_pos hm]
        rcases hsucc x hm with ⟨t, hrt, ht1, ht2⟩
        rw [hrt]
        simp [scrape_write, scrape_pending, nullOrEmpty, ht1, ht2, hm]
      · rw [if_neg hm]
        simp [hm]
    rw [List.filter_congr hpred]
    have hmapid : ∀ x ∈ s.filter
        (fun x => !(decide (x ∈ (s.filter scrape_pending).take k))
          && scrape_pending x),
        (if x ∈ (s.filter scrape_pending).take k
          then scrape_write now (res x.id) x else x) = x := by
      intro x hx
      have := (List.mem_filter.mp hx).2
      simp only [Bool.and_eq_true, Bool.not_eq_true', decide_eq_false_iff_not] at this
      exact if_neg this.1
    rw [List.map_congr_left hmapid]
    have : List.filter
        (fun x => !(decide (x ∈ (s.filter scrape_pending).take k))
          && scrape_pending x) s
        = List.filter (fun x => !(decide (x ∈ (s.filter scrape_pending).take k)))
            (s.filter scrape_pending) := by
      rw [List.filter_filter]
    rw [show (List.map (fun x => x)
        (List.filter (fun x => !(decide (x ∈ (s.filter scrape_pending).take k))
          && scrape_pending x) s))
        = List.filter (fun x => !(decide (x ∈ (s.filter scrape_pending).take k))
          && scrape_pending x) s from List.map_id _]
    rw [this, filter_not_mem_take hPnd k]
  refine ⟨hchar, hdrop, ?_⟩
  intro a ha hmem
  rw [hdrop] at hmem
  have h2 := hPnd
  rw [← List.take_append_drop k (s.filter scrape_pending), List.nodup_append] at h2
  exact h2.2.2 ha hmem

set_option maxRecDepth 10000 in
/-- Witness for the amended C3: a one-record store whose single pending
record is scraped successfully; the rerun pending set is empty. -/
theorem claim_C3_resume_witness :
    (scrape_run_upto "T" (fun _ => ScrapeResult.fetched longText)
        [artUnscraped] 1).filter scrape_pending
      = ([artUnscraped].filter scrape_pending).drop 1 :=
  (claim_C3_resume "T" (fun _ => ScrapeResult.fetched longText)
      [artUnscraped] 1 (by decide)
      (fun a _ => ⟨longText, rfl, by decide, by decide⟩)).2.1

/-- Counterexample to C3 as stated: a run of `n = 1` pending record
interrupted after `k = 1` record was processed — the processing raised an
error, so the record stays pending and the rerun selects it again instead of
the claimed `n − k = 0` records. -/
theorem claim_C3_counterexample :
    ¬ ((scrape_run_upto "T" (fun _ => ScrapeResult.failure "boom")
          [artUnscraped] 1).filter scrape_pending
        = ([artUnscraped].filter scrape_pending).drop 1) := by
  decide

/-- Claim C7: in a synchronous run an exception on one record is converted
into a persisted `'error: ' + message[:200]` status (second conjunct), and
the run maps every pending record to the write of its OWN outcome and leaves
every other record untouched (first conjunct) — so one record's failure
neither aborts the run nor alters any other record. -/
theorem claim_C7_error_isolation (now : String) (res : Nat → SummarizeResult)
    (s : List Article) (hids : (s.map Article.id).Nodup) :
    summarize_run now res s
      = (s.map fun x =>
          if summarize_pending x then summarize_write now (res x.id) x else x)
    ∧ ∀ (a : Article) (msg : String),
        summarize_write now (.failure msg) a
          = { a with summary_status := some ("error: " ++ msg.take 200) } :=
  ⟨summarize_run_char now res hids, fun _ _ => rfl⟩

set_option maxRecDepth 10000 in
/-- Witness for C7: a run over a concrete one-record store whose only
record fails. -/
theorem claim_C7_error_isolation_witness :
    summarize_run "T" (fun _ => SummarizeResult.failure "boom") [artScraped]
      = [summarize_write "T" (SummarizeResult.failure "boom") artScraped] := by
  rw [(claim_C7_error_isolation "T" (fun _ => SummarizeResult.failure "boom")
    [artScraped] (by decide)).1]
  rw [List.map_cons, List.map_nil,
    if_pos (by decide : summarize_pending artScraped = true)]

/-! ## Asynchronous batch runner

`summarize_batch_submit.py` marks the pending rows with the job handle and
`summary_status = 'batch_submitted'`; `summarize_batch_process.py` walks the
downloaded result bundle (one JSON object per line, keyed by `custom_id` =
article id) and writes each entry back; `filter_cultural_articles.py` /
`check_cultural_filter_batch.py` do the same for the relevance filter. -/

/-- One line of a batch result bundle: the correlation id (`custom_id`, the
article id), an optional per-item error, and — when there is no error — the
reply content `response.body.choices[0].message.content`. -/
structure BatchResult where
  custom_id : Nat
  error : Option String
  content : String
  deriving DecidableEq

/-- The per-entry write of `summarize_batch_process.py` lines 83–107: an
entry with an error sets `summary_status = 'error: ' + str(error)[:200]`
(leaving `summary` untouched); otherwise the content is stored as `summary`
with a timestamp and `summary_status = 'success'`. -/
def batch_write (now : String) (r : BatchResult) (a : Article) : Article :=
  match r.error with
  | some err =>
    { a with summary_status := some ("error: " ++ err.take 200) }
  | none =>
    { a with summary := some r.content, summarized_at := some now,
             summary_status := some "success" }

/-- One bundle entry applied to the store (`UPDATE ... WHERE id = ?`). -/
def process_result (now : String) (s : List Article) (r : BatchResult) :
    List Article :=
  updateById s r.custom_id (batch_write now r)

/-- The reconciliation loop of `summarize_batch_process.py` lines 75–114. -/
def process_batch (now : String) (s : List Article) (rs : List BatchResult) :
    List Article :=
  rs.foldl (process_result now) s

/-- Is `needle` a substring of `hay`?  (Python's `in` on strings.) -/
def containsSub (needle : List Char) : List Char → Bool
  | [] => needle.isEmpty
  | c :: t => needle.isPrefixOf (c :: t) || containsSub needle t

/-- Python `str.strip()`: drop whitespace from both ends. -/
def pyStrip (cs : List Char) : List Char :=
  ((cs.dropWhile Char.isWhitespace).reverse.dropWhile Char.isWhitespace).reverse

/-- Python `str.upper()`. -/
def pyUpper (cs : List Char) : List Char :=
  cs.map Char.toUpper

/-- Python `str.lower()`. -/
def pyLower (cs : List Char) : List Char :=
  cs.map Char.toLower

/-- The decision parsing of `filter_cultural_articles.py` lines 236–237 (and
`check_cultural_filter_batch.py` lines 79–80):
`decision = content.strip().upper()` and then `'YES' in decision`. -/
def filter_decision (content : String) : Bool :=
  containsSub "YES".data (pyUpper (pyStrip content.data))

/-- The per-entry write of the relevance-filter reconciliation
(`filter_cultural_articles.py` lines 226–243): an errored entry is marked
relevant (`cultural_relevant = 1`, the conservative fallback); otherwise the
decision text sets `cultural_relevant` to 1 ('YES' found) or 0. -/
def filter_write (r : BatchResult) (a : Article) : Article :=
  match r.error with
  | some _ => { a with cultural_relevant := some 1 }
  | none =>
    { a with cultural_relevant := some (if filter_decision r.content then 1 else 0) }

/-- One filter bundle entry applied to the store. -/
def process_filter_result (s : List Article) (r : BatchResult) : List Article :=
  updateById s r.custom_id (filter_write r)

/-- The relevance-filter reconciliation loop. -/
def process_filter_batch (s : List Article) (rs : List BatchResult) :
    List Article :=
  rs.foldl process_filter_result s

/-- The `WHERE` clause of the submit-marking `UPDATE` in
`summarize_batch_submit.py` lines 50–58 (`(summary IS NULL OR summary = '')
AND text IS NOT NULL AND text != '' AND LENGTH(text) > 200`). -/
def submit_cond (a : Article) : Bool :=
  nullOrEmpty a.summary && notNullOrEmpty a.text && lengthGt a.text 200

/-- The submit-marking `UPDATE`: store the job handle in `batch_id` and set
`summary_status = 'batch_submitted'` on every row matching `submit_cond`. -/
def submit_mark (bid : String) (s : List Article) : List Article :=
  s.map fun a =>
    if submit_cond a then
      { a with batch_id := some bid, summary_status := some "batch_submitted" }
    else a

/-! ### Masked-assignment normal form for reconciliation writes

Every reconciliation write assigns constants to a subset of the summary
columns (resp. to `cultural_relevant`) and leaves every other column alone.
Folding a bundle therefore acts on each row as a single combined masked
assignment, which makes idempotence and terminal-status reasoning
compositional. -/

/-- Override of optional writes: the later write wins when present. -/
def ov {α : Type} (later earlier : Option α) : Option α :=
  match later with
  | some v => some v
  | none => earlier

theorem ov_self {α : Type} (w : Option α) : ov w w = w := by cases w <;> rfl

theorem ov_assoc {α : Type} (c b a : Option α) :
    ov c (ov b a) = ov (ov c b) a := by cases c <;> rfl

theorem ov_getD {α : Type} (b a : Option α) (d : α) :
    (ov b a).getD d = b.getD (a.getD d) := by cases b <;> rfl

/-- Pending writes to the three summary columns
(`summary`, `summarized_at`, `summary_status`). -/
structure SummWr where
  sm : Option (Option String)
  sa : Option (Option String)
  ss : Option (Option String)
  deriving DecidableEq

def SummWr.idW : SummWr := ⟨none, none, none⟩

def SummWr.comp (w1 w2 : SummWr) : SummWr :=
  ⟨ov w2.sm w1.sm, ov w2.sa w1.sa, ov w2.ss w1.ss⟩

def applySW (w : SummWr) (a : Article) : Article :=
  { a with summary := w.sm.getD a.summary,
           summarized_at := w.sa.getD a.summarized_at,
           summary_status := w.ss.getD a.summary_status }

/-- The masked assignment performed by one summarize-bundle entry. -/
def wrOf (now : String) (r : BatchResult) : SummWr :=
  match r.error with
  | some err => ⟨none, none, some (some ("error: " ++ err.take 200))⟩
  | none => ⟨some (some r.content), some (some now), some (some "success")⟩

theorem batch_write_eq (now : String) (r : BatchResult) (a : Article) :
    batch_write now r a = applySW (wrOf now r) a := by
  obtain ⟨cid, err, content⟩ := r
  cases err <;> rfl

theorem batch_write_id (now : String) (r : BatchResult) (a : Article) :
    (batch_write now r a).id = a.id := by
  obtain ⟨cid, err, content⟩ := r
  cases err <;> rfl

theorem applySW_idW (a : Article) : applySW SummWr.idW a = a := rfl

theorem applySW_article_id (w : SummWr) (a : Article) : (applySW w a).id = a.id := rfl

theorem applySW_comp (w1 w2 : SummWr) (a : Article) :
    applySW w2 (applySW w1 a) = applySW (SummWr.comp w1 w2) a := by
  obtain ⟨m1, t1, s1⟩ := w1
  obtain ⟨m2, t2, s2⟩ := w2
  simp [applySW, SummWr.comp, ov_getD]

theorem SummWr.comp_idW_left (w : SummWr) : SummWr.comp SummWr.idW w = w := by
  obtain ⟨m, t, s⟩ := w
  simp only [SummWr.comp, SummWr.idW]
  cases m <;> cases t <;> cases s <;> rfl

theorem SummWr.comp_idW_right (w : SummWr) : SummWr.comp w SummWr.idW = w := rfl

theorem SummWr.comp_assoc (w1 w2 w3 : SummWr) :
    SummWr.comp (SummWr.comp w1 w2) w3 = SummWr.comp w1 (SummWr.comp w2 w3) := by
  simp [SummWr.comp, ov_assoc]

theorem SummWr.comp_self (w : SummWr) : SummWr.comp w w = w := by
  obtain ⟨m, t, s⟩ := w
  simp [SummWr.comp, ov_self]

/-- What the reconciliation loop does to one row value, seen pointwise. -/
def pointB (now : String) (rs : List BatchResult) (a : Article) : Article :=
  rs.foldl (fun y r => if y.id = r.custom_id then batch_write now r y else y) a

/-- The combined masked assignment a bundle performs on rows with id `i`. -/
def sumWriter (now : String) (i : Nat) (rs : List BatchResult) : SummWr :=
  rs.foldl
    (fun W r => if i = r.custom_id then SummWr.comp W (wrOf now r) else W)
    SummWr.idW

theorem sumWriter_pull (now : String) (i : Nat) (t : List BatchResult) :
    ∀ g W : SummWr,
      SummWr.comp g (t.foldl
          (fun W r => if i = r.custom_id then SummWr.comp W (wrOf now r) else W) W)
        = t.foldl
            (fun W r => if i = r.custom_id then SummWr.comp W (wrOf now r) else W)
            (SummWr.comp g W) := by
  induction t with
  | nil => intro g W; rfl
  | cons r t ih =>
    intro g W
    simp only [List.foldl_cons]
    rw [ih]
    congr 1
    by_cases h : i = r.custom_id
    · rw [if_pos h, if_pos h, SummWr.comp_assoc]
    · rw [if_neg h, if_neg h]

theorem pointB_id (now : String) (rs : List BatchResult) :
    ∀ a : Article, (pointB now rs a).id = a.id := by
  induction rs with
  | nil => intro a; rfl
  | cons r t ih =>
    intro a
    show (pointB now t (if a.id = r.custom_id then batch_write now r a else a)).id
      = a.id
    rw [ih]
    by_cases h : a.id = r.custom_id
    · rw [if_pos h, batch_write_id]
    · rw [if_neg h]

theorem pointB_eq (now : String) (rs : List BatchResult) :
    ∀ a : Article, pointB now rs a = applySW (sumWriter now a.id rs) a := by
  induction rs with
  | nil => intro a; exact (applySW_idW a).symm
  | cons r t ih =>
    intro a
    show pointB now t (if a.id = r.custom_id then batch_write now r a else a) = _
    have hstep : (if a.id = r.custom_id then batch_write now r a else a)
        = applySW (if a.id = r.custom_id then wrOf now r else SummWr.idW) a := by
      by_cases h : a.id = r.custom_id
      · rw [if_pos h, if_pos h, batch_write_eq]
      · rw [if_neg h, if_neg h, applySW_idW]
    rw [hstep, ih, applySW_article_id, applySW_comp]
    congr 1
    show SummWr.comp _ (sumWriter now a.id t) = sumWriter now a.id (r :: t)
    have hinit : (if a.id = r.custom_id
          then SummWr.comp SummWr.idW (wrOf now r) else SummWr.idW)
        = (if a.id = r.custom_id then wrOf now r else SummWr.idW) := by
      by_cases h : a.id = r.custom_id
      · rw [if_pos h, if_pos h, SummWr.comp_idW_left]
      · rw [if_neg h, if_neg h]
    show _ = List.foldl _
        (if a.id = r.custom_id then SummWr.comp SummWr.idW (wrOf now r)
         else SummWr.idW) t
    rw [hinit, sumWriter, sumWriter_pull, SummWr.comp_idW_right]

theorem pointB_idem (now : String) (rs : List BatchResult) (a : Article) :
    pointB now rs (pointB now rs a) = pointB now rs a := by
  calc pointB now rs (pointB now rs a)
      = applySW (sumWriter now (pointB now rs a).id rs) (pointB now rs a) :=
        pointB_eq now rs _
    _ = applySW (sumWriter now a.id rs) (applySW (sumWriter now a.id rs) a) := by
        rw [pointB_id, pointB_eq]
    _ = applySW (SummWr.comp (sumWriter now a.id rs) (sumWriter now a.id rs)) a :=
        applySW_comp _ _ _
    _ = applySW (sumWriter now a.id rs) a := by rw [SummWr.comp_self]
    _ = pointB now rs a := (pointB_eq now rs a).symm

theorem process_batch_eq_map (now : String) (rs : List BatchResult) :
    ∀ s : List Article, process_batch now s rs = s.map (pointB now rs) := by
  induction rs with
  | nil =>
    intro s
    show s = List.map (pointB now []) s
    induction s with
    | nil => rfl
    | cons b t ihs => simpa [pointB] using ihs
  | cons r t ih =>
    intro s
    show process_batch now (process_result now s r) t = _
    rw [ih, process_result, updateById, List.map_map]
    rfl

/-- The masked assignment performed by one filter-bundle entry (it always
writes `cultural_relevant`). -/
def fwOf (r : BatchResult) : Option (Option Nat) :=
  match r.error with
  | some _ => some (some 1)
  | none => some (some (if filter_decision r.content then 1 else 0))

def applyFW (w : Option (Option Nat)) (a : Article) : Article :=
  { a with cultural_relevant := w.getD a.cultural_relevant }

theorem filter_write_eq (r : BatchResult) (a : Article) :
    filter_write r a = applyFW (fwOf r) a := by
  obtain ⟨cid, err, content⟩ := r
  cases err <;> rfl

theorem filter_write_id (r : BatchResult) (a : Article) :
    (filter_write r a).id = a.id := by
  obtain ⟨cid, err, content⟩ := r
  cases err <;> rfl

theorem applyFW_none (a : Article) : applyFW none a = a := rfl

theorem applyFW_article_id (w : Option (Option Nat)) (a : Article) :
    (applyFW w a).id = a.id := rfl

theorem applyFW_comp (w1 w2 : Option (Option Nat)) (a : Article) :
    applyFW w2 (applyFW w1 a) = applyFW (ov w2 w1) a := by
  cases w2 <;> rfl

/-- Pointwise view of the filter reconciliation loop. -/
def pointF (rs : List BatchResult) (a : Article) : Article :=
  rs.foldl (fun y r => if y.id = r.custom_id then filter_write r y else y) a

/-- The combined `cultural_relevant` assignment a filter bundle performs on
rows with id `i`. -/
def filWriter (i : Nat) (rs : List BatchResult) : Option (Option Nat) :=
  rs.foldl (fun W r => if i = r.custom_id then ov (fwOf r) W else W) none

theorem filWriter_pull (i : Nat) (t : List BatchResult) :
    ∀ g W : Option (Option Nat),
      ov (t.foldl (fun W r => if i = r.custom_id then ov (fwOf r) W else W) W) g
        = t.foldl (fun W r => if i = r.custom_id then ov (fwOf r) W else W)
            (ov W g) := by
  induction t with
  | nil => intro g W; rfl
  | cons r t ih =>
    intro g W
    simp only [List.foldl_cons]
    rw [ih]
    congr 1
    by_cases h : i = r.custom_id
    · rw [if_pos h, if_pos h, ov_assoc]
    · rw [if_neg h, if_neg h]

theorem pointF_id (rs : List BatchResult) :
    ∀ a : Article, (pointF rs a).id = a.id := by
  induction rs with
  | nil => intro a; rfl
  | cons r t ih =>
    intro a
    show (pointF t (if a.id = r.custom_id then filter_write r a else a)).id = a.id
    rw [ih]
    by_cases h : a.id = r.custom_id
    · rw [if_pos h, filter_write_id]
    · rw [if_neg h]

theorem pointF_eq (rs : List BatchResult) :
    ∀ a : Article, pointF rs a = applyFW (filWriter a.id rs) a := by
  induction rs with
  | nil => intro a; exact (applyFW_none a).symm
  | cons r t ih =>
    intro a
    show pointF t (if a.id = r.custom_id then filter_write r a else a) = _
    have hstep : (if a.id = r.custom_id then filter_write r a else a)
        = applyFW (if a.id = r.custom_id then fwOf r else none) a := by
      by_cases h : a.id = r.custom_id
      · rw [if_pos h, if_pos h, filter_write_eq]
      · rw [if_neg h, if_neg h, applyFW_none]
    rw [hstep, ih, applyFW_article_id, applyFW_comp]
    congr 1
    show ov (filWriter a.id t) _ = filWriter a.id (r :: t)
    have hinit : (if a.id = r.custom_id then ov (fwOf r) none else none)
        = (if a.id = r.custom_id then fwOf r else none) := by
      by_cases h : a.id = r.custom_id
      · rw [if_pos h, if_pos h]
        cases fwOf r <;> rfl
      · rw [if_neg h, if_neg h]
    show _ = List.foldl _
        (if a.id = r.custom_id then ov (fwOf r) none else none) t
    rw [hinit, filWriter, filWriter_pull]
    rfl

theorem pointF_idem (rs : List BatchResult) (a : Article) :
    pointF rs (pointF rs a) = pointF rs a := by
  calc pointF rs (pointF rs a)
      = applyFW (filWriter (pointF rs a).id rs) (pointF rs a) := pointF_eq rs _
    _ = applyFW (filWriter a.id rs) (applyFW (filWriter a.id rs) a) := by
        rw [pointF_id, pointF_eq]
    _ = applyFW (ov (filWriter a.id rs) (filWriter a.id rs)) a := applyFW_comp _ _ _
    _ = applyFW (filWriter a.id rs) a := by rw [ov_self]
    _ = pointF rs a := (pointF_eq rs a).symm

theorem process_filter_batch_eq_map (rs : List BatchResult) :
    ∀ s : List Article, process_filter_batch s rs = s.map (pointF rs) := by
  induction rs with
  | nil =>
    intro s
    show s = List.map (pointF []) s
    induction s with
    | nil => rfl
    | cons b t ihs => simpa [pointF] using ihs
  | cons r t ih =>
    intro s
    show process_filter_batch (process_filter_result s r) t = _
    rw [ih, process_filter_result, updateById, List.map_map]
    rfl

/-- Claim C4: reconciling the same batch result bundle twice produces the
same store state as reconciling it once — every reconciliation write is a
masked constant assignment keyed by the correlation id, so re-applying the
bundle overwrites every touched column with the same value.  (This holds for
the batch-summarization reconciliation and the relevance-filter
reconciliation alike.) -/
theorem claim_C4_idempotent_reconciliation (now : String) (s : List Article)
    (rs : List BatchResult) :
    process_batch now (process_batch now s rs) rs = process_batch now s rs
    ∧ process_filter_batch (process_filter_batch s rs) rs
        = process_filter_batch s rs := by
  constructor
  · rw [process_batch_eq_map, process_batch_eq_map now rs s, List.map_map]
    exact List.map_congr_left fun a _ => pointB_idem now rs a
  · rw [process_filter_batch_eq_map, process_filter_batch_eq_map rs s,
      List.map_map]
    exact List.map_congr_left fun a _ => pointF_idem rs a

/-- A terminal summarization status: `'success'` or an error-tagged string. -/
def terminal_status (a : Article) : Prop :=
  a.summary_status = some "success"
  ∨ ∃ m, a.summary_status = some ("error: " ++ m)

theorem sumWriter_ss_shape (now : String) (i : Nat) (rs : List BatchResult) :
    ∀ W : SummWr,
      (∀ v, W.ss = some v → v = some "success" ∨ ∃ m, v = some ("error: " ++ m)) →
      ∀ v,
        (rs.foldl
            (fun W r => if i = r.custom_id then SummWr.comp W (wrOf now r) else W)
            W).ss = some v →
        v = some "success" ∨ ∃ m, v = some ("error: " ++ m) := by
  induction rs with
  | nil => intro W hW; exact hW
  | cons r t ih =>
    intro W hW
    simp only [List.foldl_cons]
    apply ih
    intro v hv
    by_cases h : i = r.custom_id
    · rw [if_pos h] at hv
      obtain ⟨cid, err, content⟩ := r
      cases err with
      | none =>
        simp [SummWr.comp, wrOf, ov] at hv
        exact Or.inl hv.symm
      | some e =>
        simp [SummWr.comp, wrOf, ov] at hv
        exact Or.inr ⟨e.take 200, hv.symm⟩
    · rw [if_neg h] at hv
      exact hW v hv

theorem sumWriter_ss_isSome (now : String) (i : Nat) (rs : List BatchResult) :
    ∀ W : SummWr, ((∃ r ∈ rs, r.custom_id = i) ∨ W.ss.isSome = true) →
      (rs.foldl
          (fun W r => if i = r.custom_id then SummWr.comp W (wrOf now r) else W)
          W).ss.isSome = true := by
  induction rs with
  | nil =>
    intro W h
    rcases h with ⟨r0, hr0, _⟩ | hW
    · cases hr0
    · exact hW
  | cons r t ih =>
    intro W h
    simp only [List.foldl_cons]
    apply ih
    rcases h with ⟨r0, hr0, hcid⟩ | hW
    · rcases List.mem_cons.mp hr0 with rfl | hmem
      · right
        rw [if_pos hcid.symm]
        obtain ⟨cid, err, content⟩ := r0
        cases err <;> simp [SummWr.comp, wrOf, ov]
      · exact Or.inl ⟨r0, hmem, hcid⟩
    · right
      by_cases h2 : i = r.custom_id
      · rw [if_pos h2]
        obtain ⟨cid, err, content⟩ := r
        cases err <;> simp [SummWr.comp, wrOf, ov]
      · rw [if_neg h2]; exact hW

theorem pointB_terminal (now : String) (rs : List BatchResult) (a : Article)
    (h : ∃ r ∈ rs, r.custom_id = a.id) : terminal_status (pointB now rs a) := by
  rw [pointB_eq]
  have hsome : (sumWriter now a.id rs).ss.isSome = true :=
    sumWriter_ss_isSome now a.id rs SummWr.idW (Or.inl h)
  obtain ⟨v, hv⟩ := Option.isSome_iff_exists.mp hsome
  have hshape := sumWriter_ss_shape now a.id rs SummWr.idW
    (by intro v0 hv0; simp [SummWr.idW] at hv0) v hv
  have hss : (applySW (sumWriter now a.id rs) a).summary_status = v := by
    show (sumWriter now a.id rs).ss.getD a.summary_status = v
    rw [hv]
    rfl
  rcases hshape with h1 | ⟨m, h2⟩
  · exact Or.inl (by rw [hss, h1])
  · exact Or.inr ⟨m, by rw [hss, h2]⟩

theorem error_ne_submitted (m : String) :
    ¬ ("error: " ++ m = "batch_submitted") := by
  intro h
  have hd : "error: ".data ++ m.data = "batch_submitted".data :=
    congrArg String.data h
  have l1 : "error: ".data = ['e', 'r', 'r', 'o', 'r', ':', ' '] := rfl
  have l2 : "batch_submitted".data
      = ['b', 'a', 't', 'c', 'h', '_', 's', 'u', 'b', 'm', 'i', 't', 't', 'e', 'd'] := rfl
  rw [l1, l2] at hd
  simp at hd

/-- Claim C5: if the result bundle of a completed batch carries an entry for
every record the submit step marked (its correlation id), then after
reconciliation every such record has a terminal status — `'success'` or an
error-tagged status — and in particular none is left with
`summary_status = 'batch_submitted'`. -/
theorem claim_C5_all_resolved (now bid : String) (s : List Article)
    (rs : List BatchResult)
    (hcover : ∀ a ∈ s, submit_cond a = true → ∃ r ∈ rs, r.custom_id = a.id) :
    ∀ a ∈ s, submit_cond a = true →
      ∀ x ∈ process_batch now (submit_mark bid s) rs, x.id = a.id →
        terminal_status x ∧ ¬ x.summary_status = some "batch_submitted" := by
  intro a ha hc x hx hxid
  rw [process_batch_eq_map] at hx
  obtain ⟨y, hy, rfl⟩ := List.mem_map.mp hx
  have hyid : y.id = a.id := by rw [← hxid, pointB_id]
  have hterm : terminal_status (pointB now rs y) := by
    refine pointB_terminal now rs y ?_
    rw [hyid]
    exact hcover a ha hc
  refine ⟨hterm, ?_⟩
  rcases hterm with h1 | ⟨m, h2⟩
  · rw [h1]
    intro hcon
    exact absurd (Option.some.inj hcon) (by decide)
  · rw [h2]
    intro hcon
    exact error_ne_submitted m (Option.some.inj hcon)

/-- The C5 witness record after the submit-marking update. -/
def submittedArt : Article :=
  { artScraped with batch_id := some "B", summary_status := some "batch_submitted" }

set_option maxRecDepth 10000 in
/-- Witness for C5: one submitted record, a bundle with one entry for it. -/
theorem claim_C5_all_resolved_witness :
    terminal_status (batch_write "T" ⟨1, none, "sum"⟩ submittedArt)
    ∧ ¬ (batch_write "T" ⟨1, none, "sum"⟩ submittedArt).summary_status
        = some "batch_submitted" := by
  refine claim_C5_all_resolved "T" "B" [artScraped] [⟨1, none, "sum"⟩]
    ?_ artScraped (by simp) (by decide) _ ?_ (by decide)
  · intro a ha hc
    rw [List.mem_singleton] at ha
    subst ha
    exact ⟨⟨1, none, "sum"⟩, by simp, rfl⟩
  · decide

/-- A submitted article (long text, no summary yet, marked by the submit
step) with id `i`. -/
def subArt (i : Nat) : Article :=
  { id := i, title := "t", url := "u" ++ toString i, source := "s", date := "d",
    search_type := "google_news", text := some longText,
    batch_id := some "B", summary_status := some "batch_submitted" }

/-- Five submitted records. -/
def store5 : List Article :=
  [subArt 1, subArt 2, subArt 3, subArt 4, subArt 5]

/-- A result bundle for the five records in which item 3 carries a provider
error and the rest carry summaries. -/
def bundle5 : List BatchResult :=
  [⟨1, none, "s1"⟩, ⟨2, none, "s2"⟩, ⟨3, some "provider error", ""⟩,
   ⟨4, none, "s4"⟩, ⟨5, none, "s5"⟩]

/-- The store after reconciling `bundle5`. -/
def expected5 : List Article :=
  [{ subArt 1 with summary := some "s1", summarized_at := some "T", summary_status := some "success" },
   { subArt 2 with summary := some "s2", summarized_at := some "T", summary_status := some "success" },
   { subArt 3 with summary_status := some "error: provider error" },
   { subArt 4 with summary := some "s4", summarized_at := some "T", summary_status := some "success" },
   { subArt 5 with summary := some "s5", summarized_at := some "T", summary_status := some "success" }]

set_option maxRecDepth 10000 in
/-- Claim C6: per-item errors get stage-specific conservative fallbacks: a
relevance-filter error marks the record relevant (`cultural_relevant = 1`); a
summarization error writes `summary_status = 'error: ' + str(error)[:200]`
and touches no other column (so a null `summary` stays null); and in the
concrete 5-record batch where item 3 errors, the other four records end with
status `'success'` and their summaries populated while record 3 ends with an
error-tagged status and a null summary. -/
theorem claim_C6_error_fallbacks :
    (∀ (r : BatchResult) (a : Article) (err : String), r.error = some err →
        filter_write r a = { a with cultural_relevant := some 1 })
    ∧ (∀ (now : String) (r : BatchResult) (a : Article) (err : String),
        r.error = some err →
        batch_write now r a
          = { a with summary_status := some ("error: " ++ err.take 200) })
    ∧ process_batch "T" store5 bundle5 = expected5
    ∧ (expected5.map fun a => a.summary)
        = [some "s1", some "s2", none, some "s4", some "s5"]
    ∧ (expected5.map fun a => a.summary_status)
        = [some "success", some "success", some "error: provider error",
           some "success", some "success"] := by
  refine ⟨?_, ?_, by rfl, by rfl, by rfl⟩
  · intro r a err h
    simp [filter_write, h]
  · intro now r a err h
    simp [batch_write, h]

/-- Witness for C6: the summarization error fallback evaluated on the
concrete errored entry of the 5-record scenario. -/
theorem claim_C6_error_fallbacks_witness :
    batch_write "T" ⟨3, some "provider error", ""⟩ (subArt 3)
      = { subArt 3 with
          summary_status := some ("error: " ++ "provider error".take 200) } :=
  claim_C6_error_fallbacks.2.1 "T" ⟨3, some "provider error", ""⟩ (subArt 3)
    "provider error" rfl

theorem filWriter_shape (i : Nat) (rs : List BatchResult) :
    ∀ W : Option (Option Nat),
      (∀ v, W = some v → v = some 0 ∨ v = some 1) →
      ∀ v,
        (rs.foldl (fun W r => if i = r.custom_id then ov (fwOf r) W else W) W)
          = some v →
        v = some 0 ∨ v = some 1 := by
  induction rs with
  | nil => intro W hW; exact hW
  | cons r t ih =>
    intro W hW
    simp only [List.foldl_cons]
    apply ih
    intro v hv
    by_cases h : i = r.custom_id
    · rw [if_pos h] at hv
      obtain ⟨cid, err, content⟩ := r
      cases err with
      | none =>
        simp only [fwOf, ov] at hv
        by_cases hd : filter_decision content = true
        · rw [if_pos hd] at hv
          exact Or.inr (Option.some.inj hv).symm
        · rw [if_neg hd] at hv
          exact Or.inl (Option.some.inj hv).symm
      | some e =>
        simp only [fwOf, ov] at hv
        exact Or.inr (Option.some.inj hv).symm
    · rw [if_neg h] at hv
      exact hW v hv

theorem filWriter_isSome (i : Nat) (rs : List BatchResult) :
    ∀ W : Option (Option Nat),
      ((∃ r ∈ rs, r.custom_id = i) ∨ W.isSome = true) →
      (rs.foldl (fun W r => if i = r.custom_id then ov (fwOf r) W else W)
          W).isSome = true := by
  induction rs with
  | nil =>
    intro W h
    rcases h with ⟨r0, hr0, _⟩ | hW
    · cases hr0
    · exact hW
  | cons r t ih =>
    intro W h
    simp only [List.foldl_cons]
    apply ih
    rcases h with ⟨r0, hr0, hcid⟩ | hW
    · rcases List.mem_cons.mp hr0 with rfl | hmem
      · right
        rw [if_pos hcid.symm]
        obtain ⟨cid, err, content⟩ := r0
        cases err <;> simp [fwOf, ov]
      · exact Or.inl ⟨r0, hmem, hcid⟩
    · right
      by_cases h2 : i = r.custom_id
      · rw [if_pos h2]
        obtain ⟨cid, err, content⟩ := r
        cases err <;> simp [fwOf, ov]
      · rw [if_neg h2]; exact hW

theorem pointF_binary (rs : List BatchResult) (a : Article)
    (h : ∃ r ∈ rs, r.custom_id = a.id) :
    (pointF rs a).cultural_relevant = some 0
    ∨ (pointF rs a).cultural_relevant = some 1 := by
  rw [pointF_eq]
  have hsome : (filWriter a.id rs).isSome = true :=
    filWriter_isSome a.id rs none (Or.inl h)
  obtain ⟨v, hv⟩ := Option.isSome_iff_exists.mp hsome
  have hshape := filWriter_shape a.id rs none (by intro v0 hv0; cases hv0) v hv
  have hcr : (applyFW (filWriter a.id rs) a).cultural_relevant = v := by
    show (filWriter a.id rs).getD a.cultural_relevant = v
    rw [hv]
    rfl
  rcases hshape with h0 | h1
  · exact Or.inl (by rw [hcr, h0])
  · exact Or.inr (by rw [hcr, h1])

/-- Claim C9: during relevance-filter reconciliation an entry without an
error marks the record relevant iff the stripped, uppercased reply contains
the substring `'YES'` (anything else gives 0), and every record whose
correlation id appears in the bundle ends with `cultural_relevant` equal to
0 or 1 (never null). -/
theorem claim_C9_yes_decision (s : List Article) (rs : List BatchResult) :
    (∀ (r : BatchResult) (a : Article), r.error = none →
        filter_write r a
          = { a with cultural_relevant := some (if containsSub "YES".data (pyUpper (pyStrip r.content.data)) then 1 else 0) })
    ∧ (∀ a ∈ s, (∃ r ∈ rs, r.custom_id = a.id) →
        ∀ x ∈ process_filter_batch s rs, x.id = a.id →
          x.cultural_relevant = some 0 ∨ x.cultural_relevant = some 1) := by
  constructor
  · intro r a h
    simp [filter_write, h, filter_decision]
  · intro a ha hex x hx hxid
    rw [process_filter_batch_eq_map] at hx
    obtain ⟨y, hy, rfl⟩ := List.mem_map.mp hx
    have hyid : y.id = a.id := by rw [← hxid, pointF_id]
    refine pointF_binary rs y ?_
    rw [hyid]
    exact hex

set_option maxRecDepth 10000 in
/-- Witness for C9: an affirmative reply `' yes '` on a concrete record. -/
theorem claim_C9_yes_decision_witness :
    (filter_write ⟨1, none, " yes "⟩ artScraped
      = { artScraped with cultural_relevant := some (if containsSub "YES".data (pyUpper (pyStrip " yes ".data)) then 1 else 0) })
    ∧ ((filter_write ⟨1, none, " yes "⟩ artScraped).cultural_relevant = some 0
        ∨ (filter_write ⟨1, none, " yes "⟩ artScraped).cultural_relevant
            = some 1) :=
  ⟨(claim_C9_yes_decision [] []).1 ⟨1, none, " yes "⟩ artScraped rfl,
   (claim_C9_yes_decision [artScraped] [⟨1, none, " yes "⟩]).2 artScraped
     (by simp) ⟨⟨1, none, " yes "⟩, by simp, by decide⟩ _ (by decide) (by decide)⟩

/-! ## Relative date parsing (`google_search/google_search.py`)

`parse_relative_date` first tries the external absolute-date parser
(`dateutil.parser.parse`, an out-of-scope collaborator, abstracted as a
function `String → Option Int`), then matches the relative patterns
`(\d+)\s*UNIT[s]?\s*ago` in a fixed unit order against the lowercased,
stripped string, then the special cases `yesterday` / `today` / `just now`,
and finally gives up.  Times are modelled as integer seconds (`timedelta`
arithmetic is exact in seconds; a month counts as 30 days and a year as 365
days, as in the source). -/

/-- Numeric value of a digit run (the regex group `(\d+)`). -/
def digitsVal (cs : List Char) : Nat :=
  cs.foldl (fun n c => n * 10 + (c.toNat - 48)) 0

/-- Match `(\d+)\s*UNIT[s]?\s*ago` at the start of `cs`, returning the
captured number. -/
def matchPatternAt (unit : List Char) (cs : List Char) : Option Nat :=
  let ds := cs.takeWhile Char.isDigit
  if ds.isEmpty then none
  else
    let r1 := (cs.drop ds.length).dropWhile Char.isWhitespace
    if unit.isPrefixOf r1 then
      let r2 := r1.drop unit.length
      let r3 := match r2 with
        | 's' :: t => t
        | _ => r2
      let r4 := r3.dropWhile Char.isWhitespace
      if ("ago".data).isPrefixOf r4 then some (digitsVal ds) else none
    else none

/-- `re.search` for the pattern: try every start position, leftmost first. -/
def searchPattern (unit : List Char) : List Char → Option Nat
  | [] => none
  | c :: t =>
    match matchPatternAt unit (c :: t) with
    | some n => some n
    | none => searchPattern unit t

/-- The pattern table of `parse_relative_date` (lines 27–35), each unit with
its length in seconds (months ≈ 30 days, years ≈ 365 days, lines 51–56). -/
def unitSeconds : List (List Char × Int) :=
  [("second".data, 1), ("minute".data, 60), ("hour".data, 3600),
   ("day".data, 86400), ("week".data, 604800), ("month".data, 2592000),
   ("year".data, 31536000)]

/-- The relative part of `parse_relative_date`: the offset (in seconds)
subtracted from `now`, or `none` when nothing matches.  The pattern loop
runs first in its fixed order; then `'yesterday' in s` (one day), then
`'today' in s or 'just now' in s` (zero). -/
def relOffset (low : List Char) : Option Int :=
  match unitSeconds.findSome?
      (fun p => (searchPattern p.1 low).map (fun n => (n : Int) * p.2)) with
  | some off => some off
  | none =>
    if containsSub "yesterday".data low then some 86400
    else if containsSub "today".data low || containsSub "just now".data low
      then some 0
    else none

/-- `parse_relative_date` (lines 8–65): empty string → `None`; otherwise try
the absolute parser; otherwise resolve a relative expression against `now`
using the lowercased, stripped string; otherwise `None`. -/
def parse_relative_date (absParse : String → Option Int) (now : Int)
    (ds : String) : Option Int :=
  if ds = "" then none
  else
    match absParse ds with
    | some t => some t
    | none =>
      match relOffset (pyStrip (pyLower ds.data)) with
      | some off => some (now - off)
      | none => none

/-- `date_to_store` in `run_search` (lines 142–144): the parsed timestamp is
stored in ISO form (`isoformat`, an external method abstracted as `iso`),
an unparseable string is stored verbatim. -/
def date_to_store (iso : Int → String) (absParse : String → Option Int)
    (now : Int) (ds : String) : String :=
  match parse_relative_date absParse now ds with
  | some t => iso t
  | none => ds

/-- Claim C8: provided the absolute-date collaborator rejects them (as
`dateutil` does), `"2 days ago"` parses to exactly `now − 2·86400` seconds
and `"yesterday"` to exactly `now − 86400`; and any string the parser cannot
handle at all is stored verbatim rather than raising or dropping the row. -/
theorem claim_C8_relative_dates (absParse : String → Option Int)
    (iso : Int → String) (now : Int)
    (h1 : absParse "2 days ago" = none) (h2 : absParse "yesterday" = none) :
    parse_relative_date absParse now "2 days ago" = some (now - 172800)
    ∧ parse_relative_date absParse now "yesterday" = some (now - 86400)
    ∧ ∀ ds : String, parse_relative_date absParse now ds = none →
        date_to_store iso absParse now ds = ds := by
  refine ⟨?_, ?_, ?_⟩
  · unfold parse_relative_date
    rw [if_neg (by decide : ¬ ("2 days ago" : String) = ""), h1,
      show relOffset (pyStrip (pyLower ("2 days ago" : String).data))
        = some 172800 from by decide]
  · unfold parse_relative_date
    rw [if_neg (by decide : ¬ ("yesterday" : String) = ""), h2,
      show relOffset (pyStrip (pyLower ("yesterday" : String).data))
        = some 86400 from by decide]
  · intro ds h
    unfold date_to_store
    rw [h]

/-- Witness for C8: the relative dates evaluated against a concrete
reference time and an absolute parser that fails on them. -/
theorem claim_C8_relative_dates_witness :
    parse_relative_date (fun _ => none) 0 "2 days ago" = some (0 - 172800)
    ∧ parse_relative_date (fun _ => none) 0 "yesterday" = some (0 - 86400) :=
  ⟨(claim_C8_relative_dates (fun _ => none) (fun t => toString t) 0 rfl rfl).1,
   (claim_C8_relative_dates (fun _ => none) (fun t => toString t) 0 rfl rfl).2.1⟩
